import Mathlib

/-!
Shallow embedding of `src/main.py` of mbRoleplus, an identifier converter
between metabolomics catalogs backed by an SQLite table with columns
`id`, `inchikey`, `database`.

The backing relation is modelled as a `List Row` in the engine's row-return
order (the SQL queries in the source carry no ORDER BY, so the list order
stands for the order in which `fetchall()` returns rows).  Failures that the
Python code raises (IndexError, ZeroDivisionError, file errors, sys.exit)
are made explicit with `Option` and an `Outcome` type.
-/

namespace Mbrole

/-- Row of the backing relation: columns `id`, `inchikey`, `database`
(spec names: source_identifier, canonical_key, source_tag). -/
structure Row where
  id : String
  inchikey : String
  database : String
deriving DecidableEq

/-- Embedding of `SQL_GET_INCHIKEY`:
`SELECT inchikey from {table} where id == "{metabolite}"`, fetchall. -/
def sqlGetInchikey (rel : List Row) (metabolite : String) : List String :=
  (rel.filter (fun r => r.id == metabolite)).map (fun r => r.inchikey)

/-- Embedding of `SQL_GET_ID_WITH_INCHIKEY`:
`Select id from {table} where inchikey == "{inchikey}" AND {field} == "{id}"`,
fetchall, with the lookup field being the `database` column of the schema. -/
def sqlGetIdWithInchikey (rel : List Row) (inchikey tagValue : String) : List String :=
  (rel.filter (fun r => r.inchikey == inchikey && r.database == tagValue)).map (fun r => r.id)

/-- One iteration of the loop body of `convert` (main.py lines 202-218) for a
single metabolite.
`none` models the uncaught IndexError of `fetchall()[0][0]` when the second
query returns no rows; `some none` is the unmatched outcome (hop-1 miss);
`some (some y)` records `founded_ids[metabolite] = y` where
`y = fetchall()[0][0]` is the first row of the second query.
The dead zero-length check `if (len(molecules) == 0): pass` inspects the
string `y` and does nothing, so it does not appear in the result. -/
def convertOne (rel : List Row) (tag metabolite : String) : Option (Option String) :=
  match sqlGetInchikey rel metabolite with
  | [] => some none
  | k :: _ =>
    match sqlGetIdWithInchikey rel k tag with
    | [] => none
    | y :: _ => some (some y)

/-- Embedding of `convert` (main.py lines 166-219): iterate over the input
identifiers, building `founded_ids` (as an association list in insertion
order) and `unavailable_ids`.  `none` models the loop dying with the
IndexError of `convertOne`. -/
def convert (rel : List Row) (tag : String) (input : List String) :
    Option (List (String × String) × List String) :=
  match input with
  | [] => some ([], [])
  | m :: rest =>
    match convertOne rel tag m, convert rel tag rest with
    | none, _ => none
    | some _, none => none
    | some none, some (f, u) => some (f, m :: u)
    | some (some y), some (f, u) => some ((m, y) :: f, u)

/-- Embedding of `str.strip` with the newline character as argument:
drop leading and trailing newline characters. -/
def stripNL (s : String) : String :=
  String.mk (((s.data.dropWhile (fun c => c == '\n')).reverse.dropWhile
      (fun c => c == '\n')).reverse)

/-- Embedding of `_parse_input_file` (main.py lines 99-111): each line is
stripped of newline characters and the results are collected into a set
(modelled as a duplicate-free list). -/
def parseInputFile (lines : List String) : List String :=
  (lines.map stripNL).dedup

/-- Environment seen by `validation` and `main`: the filesystem and database
facts the Python code queries (os.path.exists, sqlite_master, PRAGMA
table_info, SELECT DISTINCT), plus whether the file opens performed by
`_parse_input_file` and `save_compounds` succeed. -/
structure Env where
  databaseExists : Bool
  tables : List String
  columnsOf : String → List String
  distinctValues : String → String → List String
  inputExists : Bool
  outputDirExists : Bool
  discardedWritable : Bool

/-- Names of the six checks of `validation`, in source order. -/
inductive Check where
  | storage
  | relation
  | field
  | tag
  | inputPath
  | outputPath
deriving DecidableEq

/-- Embedding of `validation` (main.py lines 113-164): the verdict together
with the list of checks actually executed, in order.  The first four checks
each `return False` on failure; the input-path and output-directory checks
only log and never change the verdict, and the function then returns True. -/
def validation (env : Env) (id table field : String) : Bool × List Check :=
  if !env.databaseExists then (false, [.storage])
  else if !(env.tables.contains table) then (false, [.storage, .relation])
  else if !((env.columnsOf table).contains field) then
    (false, [.storage, .relation, .field])
  else if !((env.distinctValues table field).contains id) then
    (false, [.storage, .relation, .field, .tag])
  else
    (true, [.storage, .relation, .field, .tag, .inputPath, .outputPath])

/-- Observable outcome of one process run of `main`:
`exited c` for `sys.exit(c)`, `raised e` for an uncaught exception (the
interpreter then exits non-zero), `completed f u` for `main` returning
normally (the interpreter then exits 0), carrying the conversion result. -/
inductive Outcome where
  | exited (code : Int)
  | raised (err : String)
  | completed (founded : List (String × String)) (unavailable : List String)
deriving DecidableEq

/-- Exit code of the process for each outcome; an uncaught Python exception
makes the interpreter exit 1. -/
def exitCode : Outcome → Int
  | .exited c => c
  | .raised _ => 1
  | .completed _ _ => 0

/-- Embedding of `main` (main.py lines 227-240): validation gate, input
parsing, conversion, the summary log line dividing by
`len(input_compounds)`, and the two `save_compounds` writes.  Returns the
outcome together with a flag telling whether resolution (`convert`) ran. -/
def mainRun (env : Env) (rel : List Row) (id table field : String)
    (inputLines : List String) : Outcome × Bool :=
  if !(validation env id table field).1 then (.exited 1, false)
  else if !env.inputExists then (.raised "FileNotFoundError", false)
  else
    let input := parseInputFile inputLines
    match convert rel id input with
    | none => (.raised "IndexError", true)
    | some (f, u) =>
      if input.isEmpty then (.raised "ZeroDivisionError", true)
      else if !env.outputDirExists then (.raised "FileNotFoundError", true)
      else if !env.discardedWritable then (.raised "OSError", true)
      else (.completed f u, true)

/-! Concrete fixtures used to evaluate the embedded code on explicit
inputs. -/

/-- Relation with one source row under tag `src` and no row at all under
tag `tgt` for the same inchikey. -/
def relHop2Miss : List Row :=
  [⟨"X", "K", "src"⟩]

/-- Relation where inchikey `K` has two distinct identifiers under the
target tag `tgt`. -/
def relMulti : List Row :=
  [⟨"X", "K", "src"⟩, ⟨"Y1", "K", "tgt"⟩, ⟨"Y2", "K", "tgt"⟩]

/-- Small fully resolvable relation: `A` converts to `B` under tag `t`. -/
def relTwo : List Row :=
  [⟨"A", "K", "s"⟩, ⟨"B", "K", "t"⟩]

/-- Relation where source `X` maps to two different inchikeys, each with its
own entry under the target tag `t`. -/
def relAmbiguous : List Row :=
  [⟨"X", "K1", "a"⟩, ⟨"X", "K2", "a"⟩, ⟨"B1", "K1", "t"⟩, ⟨"B2", "K2", "t"⟩]

/-- Relation where the row under the target tag carries the empty string as
identifier. -/
def relEmptyId : List Row :=
  [⟨"X", "K", "s"⟩, ⟨"", "K", "t"⟩]

/-- Environment in which every check of `validation` passes and all file
operations succeed. -/
def envOK : Env :=
  { databaseExists := true
    tables := ["tab"]
    columnsOf := fun _ => ["id", "inchikey", "database"]
    distinctValues := fun _ _ => ["t", "s"]
    inputExists := true
    outputDirExists := true
    discardedWritable := true }

/-- Environment whose database path does not exist. -/
def envNoDB : Env :=
  { envOK with databaseExists := false }

/-- Environment in which the four backing-store checks pass but the input
file is missing. -/
def envNoInput : Env :=
  { envOK with inputExists := false }

/-- The loop of `convert` dies with IndexError exactly when some input
identifier hits at hop 1 but gets zero rows at hop 2. -/
theorem convert_eq_none_iff (rel : List Row) (tag : String) (l : List String) :
    convert rel tag l = none ↔ ∃ x ∈ l, convertOne rel tag x = none := by
  induction l with
  | nil => simp [convert]
  | cons m rest ih =>
    rcases h : convertOne rel tag m with _ | (_ | y)
    · simp only [convert, h]
      exact iff_of_true trivial ⟨m, List.mem_cons_self m rest, h⟩
    · rcases hr : convert rel tag rest with _ | ⟨f, u⟩
      · simp only [convert, h, hr]
        obtain ⟨x, hx, hcx⟩ := ih.mp hr
        exact iff_of_true trivial ⟨x, List.mem_cons_of_mem m hx, hcx⟩
      · simp only [convert, h, hr]
        refine iff_of_false (by simp) ?_
        rintro ⟨x, hx, hcx⟩
        rcases List.mem_cons.mp hx with rfl | hx2
        · rw [h] at hcx
          exact Option.noConfusion hcx
        · have hn := ih.mpr ⟨x, hx2, hcx⟩
          rw [hn] at hr
          exact Option.noConfusion hr
    · rcases hr : convert rel tag rest with _ | ⟨f, u⟩
      · simp only [convert, h, hr]
        obtain ⟨x, hx, hcx⟩ := ih.mp hr
        exact iff_of_true trivial ⟨x, List.mem_cons_of_mem m hx, hcx⟩
      · simp only [convert, h, hr]
        refine iff_of_false (by simp) ?_
        rintro ⟨x, hx, hcx⟩
        rcases List.mem_cons.mp hx with rfl | hx2
        · rw [h] at hcx
          exact Option.noConfusion hcx
        · have hn := ih.mpr ⟨x, hx2, hcx⟩
          rw [hn] at hr
          exact Option.noConfusion hr

/-- Membership characterisation of a successful run of `convert`: an
identifier is recorded in `founded_ids` with value `y` iff it is an input
and its own two-hop lookup yields `y`, and it is recorded unavailable iff it
is an input and its own hop-1 lookup is empty.  Each identifier's outcome is
a function of the relation and that identifier alone. -/
theorem convert_some_spec (rel : List Row) (tag : String) (l : List String)
    (f : List (String × String)) (u : List String)
    (hc : convert rel tag l = some (f, u)) :
    (∀ x y, (x, y) ∈ f ↔ x ∈ l ∧ convertOne rel tag x = some (some y)) ∧
    (∀ x, x ∈ u ↔ x ∈ l ∧ convertOne rel tag x = some none) := by
  induction l generalizing f u with
  | nil =>
    simp only [convert, Option.some.injEq, Prod.mk.injEq] at hc
    obtain ⟨rfl, rfl⟩ := hc
    simp
  | cons m rest ih =>
    rcases h : convertOne rel tag m with _ | (_ | y0)
    · simp only [convert, h] at hc
      exact Option.noConfusion hc
    · rcases hr : convert rel tag rest with _ | ⟨f2, u2⟩
      · simp only [convert, h, hr] at hc
        exact Option.noConfusion hc
      · simp only [convert, h, hr, Option.some.injEq, Prod.mk.injEq] at hc
        obtain ⟨rfl, rfl⟩ := hc
        obtain ⟨ihf, ihu⟩ := ih f2 u2 hr
        constructor
        · intro x y
          rw [ihf x y]
          constructor
          · rintro ⟨hx, hcx⟩
            exact ⟨List.mem_cons_of_mem m hx, hcx⟩
          · rintro ⟨hx, hcx⟩
            rcases List.mem_cons.mp hx with rfl | hx2
            · rw [h] at hcx
              simp at hcx
            · exact ⟨hx2, hcx⟩
        · intro x
          simp only [List.mem_cons, ihu x]
          constructor
          · rintro (rfl | ⟨hx, hcx⟩)
            · exact ⟨Or.inl rfl, h⟩
            · exact ⟨Or.inr hx, hcx⟩
          · rintro ⟨rfl | hx, hcx⟩
            · exact Or.inl rfl
            · exact Or.inr ⟨hx, hcx⟩
    · rcases hr : convert rel tag rest with _ | ⟨f2, u2⟩
      · simp only [convert, h, hr] at hc
        exact Option.noConfusion hc
      · simp only [convert, h, hr, Option.some.injEq, Prod.mk.injEq] at hc
        obtain ⟨rfl, rfl⟩ := hc
        obtain ⟨ihf, ihu⟩ := ih f2 u2 hr
        constructor
        · intro x y
          simp only [List.mem_cons, ihf x y, Prod.mk.injEq]
          constructor
          · rintro (⟨rfl, rfl⟩ | ⟨hx, hcx⟩)
            · exact ⟨Or.inl rfl, h⟩
            · exact ⟨Or.inr hx, hcx⟩
          · rintro ⟨rfl | hx, hcx⟩
            · rw [h] at hcx
              simp only [Option.some.injEq] at hcx
              exact Or.inl ⟨rfl, hcx.symm⟩
            · exact Or.inr ⟨hx, hcx⟩
        · intro x
          rw [ihu x]
          constructor
          · rintro ⟨hx, hcx⟩
            exact ⟨List.mem_cons_of_mem m hx, hcx⟩
          · rintro ⟨hx, hcx⟩
            rcases List.mem_cons.mp hx with rfl | hx2
            · rw [h] at hcx
              simp at hcx
            · exact ⟨hx2, hcx⟩

/-- C1: the claim says a hop-2 miss is classified as unmatched and raises no
error.  The code only does this at hop 1: for `NOPE` (absent everywhere) the
run records it unmatched and continues, but for `X` (present at hop 1, no
row under the target tag at hop 2) the expression `fetchall()[0][0]` raises
IndexError, modelled here by `convert` returning `none`. -/
theorem hop2_miss_raises_index_error :
    convert relHop2Miss "tgt" ["X"] = none ∧
    convert relHop2Miss "tgt" ["NOPE"] = some ([], ["NOPE"]) := by
  decide

/-- C2: the claim says the full set of distinct target identifiers is
recorded.  On a relation where inchikey `K` has the two target rows `Y1` and
`Y2` under tag `tgt`, the second query returns both, yet the code records
only `fetchall()[0][0]`, i.e. `X` is matched to `Y1` alone and `Y2` is
dropped. -/
theorem multimatch_collapsed_to_first :
    sqlGetIdWithInchikey relMulti "K" "tgt" = ["Y1", "Y2"] ∧
    convert relMulti "tgt" ["X"] = some ([("X", "Y1")], []) := by
  decide

/-- C3: whenever `convert` produces a result, the keys of `founded_ids`
together with `unavailable_ids` cover exactly the input identifiers, and no
identifier is in both. -/
theorem convert_partition (rel : List Row) (tag : String) (l : List String)
    (f : List (String × String)) (u : List String)
    (hc : convert rel tag l = some (f, u)) :
    (∀ x, (x ∈ f.map Prod.fst ∨ x ∈ u) ↔ x ∈ l) ∧
    (∀ x, ¬(x ∈ f.map Prod.fst ∧ x ∈ u)) := by
  obtain ⟨hf, hu⟩ := convert_some_spec rel tag l f u hc
  have hnone : ∀ x ∈ l, convertOne rel tag x ≠ none := by
    intro x hx hcx
    have hn := (convert_eq_none_iff rel tag l).mpr ⟨x, hx, hcx⟩
    rw [hn] at hc
    exact Option.noConfusion hc
  constructor
  · intro x
    constructor
    · rintro (hx | hx)
      · obtain ⟨⟨a, b⟩, hab, hfst⟩ := List.mem_map.mp hx
        cases hfst
        exact ((hf a b).mp hab).1
      · exact ((hu x).mp hx).1
    · intro hx
      rcases hone : convertOne rel tag x with _ | (_ | y)
      · exact absurd hone (hnone x hx)
      · exact Or.inr ((hu x).mpr ⟨hx, hone⟩)
      · exact Or.inl (List.mem_map.mpr ⟨(x, y), (hf x y).mpr ⟨hx, hone⟩, rfl⟩)
  · rintro x ⟨hxf, hxu⟩
    obtain ⟨⟨a, b⟩, hab, hfst⟩ := List.mem_map.mp hxf
    cases hfst
    have h1 := ((hf a b).mp hab).2
    have h2 := ((hu a).mp hxu).2
    rw [h1] at h2
    simp at h2

/-- C3 witness: on the concrete relation `relTwo` with input `A, Z`, the
run yields `founded_ids = [(A, B)]` and `unavailable_ids = [Z]`, and the
partition property instantiates at `A`. -/
theorem convert_partition_witness :
    ("A" ∈ ([("A", "B")] : List (String × String)).map Prod.fst ∨
        "A" ∈ (["Z"] : List String)) ↔ "A" ∈ ["A", "Z"] :=
  (convert_partition relTwo "t" ["A", "Z"] [("A", "B")] ["Z"] (by decide)).1 "A"

/-- C4: soundness of a successful run: if `X` is matched to `Y` then some
inchikey `K` occurs in a row with identifier `X` (any tag) and in a row with
identifier `Y` under the requested target tag. -/
theorem convert_sound (rel : List Row) (tag : String) (l : List String)
    (f : List (String × String)) (u : List String) (x y : String)
    (hc : convert rel tag l = some (f, u)) (hxy : (x, y) ∈ f) :
    ∃ k, (∃ r ∈ rel, r.id = x ∧ r.inchikey = k) ∧
      (∃ r ∈ rel, r.id = y ∧ r.inchikey = k ∧ r.database = tag) := by
  obtain ⟨hf, _⟩ := convert_some_spec rel tag l f u hc
  have hone := ((hf x y).mp hxy).2
  rcases h1 : sqlGetInchikey rel x with _ | ⟨k, ks⟩
  · simp only [convertOne, h1] at hone
    exact Option.noConfusion (Option.some.inj hone)
  · simp only [convertOne, h1] at hone
    rcases h2 : sqlGetIdWithInchikey rel k tag with _ | ⟨y0, ys⟩
    · simp only [h2] at hone
      exact Option.noConfusion hone
    · simp only [h2, Option.some.injEq] at hone
      refine ⟨k, ?_, ?_⟩
      · rcases hfil : rel.filter (fun r => r.id == x) with _ | ⟨r, rs⟩
        · simp only [sqlGetInchikey, hfil, List.map_nil] at h1
          exact List.noConfusion h1
        · have hrmem := List.mem_filter.mp (hfil ▸ List.mem_cons_self r rs)
          simp only [sqlGetInchikey, hfil, List.map_cons, List.cons.injEq] at h1
          exact ⟨r, hrmem.1, eq_of_beq hrmem.2, h1.1⟩
      · rcases hfil : rel.filter (fun r => r.inchikey == k && r.database == tag)
            with _ | ⟨r, rs⟩
        · simp only [sqlGetIdWithInchikey, hfil, List.map_nil] at h2
          exact List.noConfusion h2
        · have hrmem := List.mem_filter.mp (hfil ▸ List.mem_cons_self r rs)
          have hand := Bool.and_eq_true_iff.mp hrmem.2
          simp only [sqlGetIdWithInchikey, hfil, List.map_cons, List.cons.injEq] at h2
          refine ⟨r, hrmem.1, ?_, eq_of_beq hand.1, eq_of_beq hand.2⟩
          rw [h2.1, hone]

/-- C4 witness: on `relTwo`, `A` is matched to `B`, and indeed `K` links a
row with identifier `A` to a row with identifier `B` under tag `t`. -/
theorem convert_sound_witness :
    ∃ k, (∃ r ∈ relTwo, r.id = "A" ∧ r.inchikey = k) ∧
      (∃ r ∈ relTwo, r.id = "B" ∧ r.inchikey = k ∧ r.database = "t") :=
  convert_sound relTwo "t" ["A", "Z"] [("A", "B")] ["Z"] "A" "B"
    (by decide) (by decide)

/-- C5: `validation` runs its checks in source order, returns a negative
verdict at the first failing of the four backing-store checks without
executing any later check, and once the four backing-store checks pass it
returns a positive verdict, whatever the state of the input file and the
output directory (those two checks only log). -/
theorem validation_check_order (env : Env) (id table field : String) :
    (env.databaseExists = false →
      validation env id table field = (false, [.storage])) ∧
    (env.databaseExists = true → table ∉ env.tables →
      validation env id table field = (false, [.storage, .relation])) ∧
    (env.databaseExists = true → table ∈ env.tables →
      field ∉ env.columnsOf table →
      validation env id table field = (false, [.storage, .relation, .field])) ∧
    (env.databaseExists = true → table ∈ env.tables →
      field ∈ env.columnsOf table →
      id ∉ env.distinctValues table field →
      validation env id table field = (false, [.storage, .relation, .field, .tag])) ∧
    (env.databaseExists = true → table ∈ env.tables →
      field ∈ env.columnsOf table →
      id ∈ env.distinctValues table field →
      validation env id table field =
        (true, [.storage, .relation, .field, .tag, .inputPath, .outputPath])) := by
  refine ⟨?_, ?_, ?_, ?_, ?_⟩ <;> intros <;> simp [validation, *]

/-- C5 witness: with a missing database the verdict is negative after the
storage check alone, and with all four backing-store checks passing but the
input file missing the verdict is still positive. -/
theorem validation_check_order_witness :
    validation envNoDB "t" "tab" "database" = (false, [.storage]) ∧
    validation envNoInput "t" "tab" "database" =
      (true, [.storage, .relation, .field, .tag, .inputPath, .outputPath]) :=
  ⟨(validation_check_order envNoDB "t" "tab" "database").1 (by decide),
   (validation_check_order envNoInput "t" "tab" "database").2.2.2.2
     (by decide) (by decide) (by decide) (by decide)⟩

/-- C6: a negative validation verdict makes `main` call `sys.exit(1)`
without ever running `convert`, and a run of `main` that returns normally
has process exit code 0, whatever its unmatched set contains. -/
theorem main_exit_codes (env : Env) (rel : List Row) (id table field : String)
    (inputLines : List String) :
    ((validation env id table field).1 = false →
      mainRun env rel id table field inputLines = (.exited 1, false)) ∧
    (∀ f u, (mainRun env rel id table field inputLines).1 = .completed f u →
      exitCode (mainRun env rel id table field inputLines).1 = 0) := by
  constructor
  · intro h
    simp [mainRun, h]
  · intro f u h
    rw [h]
    rfl

/-- C6 witness: with a missing database `main` exits 1 and never reaches
resolution; on a valid environment with input `A, Z` (where `Z` stays
unmatched) `main` returns normally and the exit code is 0. -/
theorem main_exit_codes_witness :
    mainRun envNoDB relTwo "t" "tab" "database" ["A\n", "Z"] = (.exited 1, false) ∧
    mainRun envOK relTwo "t" "tab" "database" ["A\n", "Z"] =
      (.completed [("A", "B")] ["Z"], true) ∧
    exitCode (mainRun envOK relTwo "t" "tab" "database" ["A\n", "Z"]).1 = 0 :=
  ⟨(main_exit_codes envNoDB relTwo "t" "tab" "database" ["A\n", "Z"]).1 (by decide),
   by decide,
   (main_exit_codes envOK relTwo "t" "tab" "database" ["A\n", "Z"]).2
     [("A", "B")] ["Z"] (by decide)⟩

/-- C7: permuting the input lines before deduplication changes neither
whether the loop dies nor the matched/unmatched partition (compared as
sets), and each identifier's fate in a successful run is a function of the
relation and that identifier alone (`convertOne`). -/
theorem convert_order_independent (rel : List Row) (tag : String)
    (l1 l2 : List String) (hperm : l1.Perm l2) :
    ((convert rel tag (parseInputFile l1) = none ↔
        convert rel tag (parseInputFile l2) = none) ∧
      ∀ f1 u1 f2 u2, convert rel tag (parseInputFile l1) = some (f1, u1) →
        convert rel tag (parseInputFile l2) = some (f2, u2) →
        (∀ p, p ∈ f1 ↔ p ∈ f2) ∧ (∀ x, x ∈ u1 ↔ x ∈ u2)) ∧
    (∀ l f u x y, convert rel tag l = some (f, u) →
      ((x, y) ∈ f ↔ x ∈ l ∧ convertOne rel tag x = some (some y)) ∧
      (x ∈ u ↔ x ∈ l ∧ convertOne rel tag x = some none)) := by
  have hp : (parseInputFile l1).Perm (parseInputFile l2) :=
    (hperm.map stripNL).dedup
  refine ⟨⟨?_, ?_⟩, ?_⟩
  · rw [convert_eq_none_iff, convert_eq_none_iff]
    constructor
    · rintro ⟨x, hx, hcx⟩
      exact ⟨x, hp.mem_iff.mp hx, hcx⟩
    · rintro ⟨x, hx, hcx⟩
      exact ⟨x, hp.mem_iff.mpr hx, hcx⟩
  · intro f1 u1 f2 u2 h1 h2
    obtain ⟨hf1, hu1⟩ := convert_some_spec rel tag _ f1 u1 h1
    obtain ⟨hf2, hu2⟩ := convert_some_spec rel tag _ f2 u2 h2
    constructor
    · rintro ⟨x, y⟩
      rw [hf1 x y, hf2 x y, hp.mem_iff]
    · intro x
      rw [hu1 x, hu2 x, hp.mem_iff]
  · intro l f u x y hc
    obtain ⟨hf, hu⟩ := convert_some_spec rel tag l f u hc
    exact ⟨hf x y, hu x⟩

/-- C7 witness: swapping the two input lines `A` and `Z` leaves the
crash/no-crash behaviour of the run on `relTwo` unchanged. -/
theorem convert_order_independent_witness :
    convert relTwo "t" (parseInputFile ["A\n", "Z"]) = none ↔
      convert relTwo "t" (parseInputFile ["Z", "A\n"]) = none :=
  ((convert_order_independent relTwo "t" ["A\n", "Z"] ["Z", "A\n"]
      (List.Perm.swap "Z" "A\n" [])).1).1

/-- C8: when hop 1 returns several rows, the key of the first returned row
is the one the resolver carries to hop 2: the loop dies exactly when the
first key has no row under the target tag, and the recorded match is
exactly the head of the target rows of that first key, whatever the later
hop-1 keys would yield. -/
theorem convertOne_uses_first_key (rel : List Row) (tag x k : String)
    (ks : List String) (h1 : sqlGetInchikey rel x = k :: ks) :
    (convertOne rel tag x = none ↔ sqlGetIdWithInchikey rel k tag = []) ∧
    (∀ y, convertOne rel tag x = some (some y) ↔
      (sqlGetIdWithInchikey rel k tag).head? = some y) := by
  simp only [convertOne, h1]
  rcases h2 : sqlGetIdWithInchikey rel k tag with _ | ⟨y0, ys⟩ <;> simp [h2]

/-- C8 witness: on `relAmbiguous` the source `X` carries keys `K1` then
`K2`; the resolver matches `X` to `B1`, the target entry of the first key
`K1`, not to `B2`. -/
theorem convertOne_uses_first_key_witness :
    convertOne relAmbiguous "t" "X" = some (some "B1") :=
  ((convertOne_uses_first_key relAmbiguous "t" "X" "K1" ["K2"]
      (by decide)).2 "B1").mpr (by decide)

/-- C9: the claim says an empty input yields empty matched and unmatched
sets with no failure.  The loop itself does return the empty partition, but
`main` then computes `len(converted.keys())/len(input_compounds)` for its
summary log line, which divides by zero on an empty input set, so the run
raises ZeroDivisionError after resolution. -/
theorem empty_input_divides_by_zero :
    (∀ rel tag, convert rel tag ([] : List String) = some ([], [])) ∧
    mainRun envOK relTwo "t" "tab" "database" [] =
      (.raised "ZeroDivisionError", true) :=
  ⟨fun _ _ => rfl, by decide⟩

/-- C10: when hop 2 returns rows and the first row's identifier is the
empty string, the identifier is still recorded as matched to the empty
string: the `len(molecules) == 0` test only guards a `pass` and has no
effect on the result. -/
theorem empty_string_match_recorded (rel : List Row) (tag x k : String)
    (ks ys : List String)
    (h1 : sqlGetInchikey rel x = k :: ks)
    (h2 : sqlGetIdWithInchikey rel k tag = "" :: ys) :
    convert rel tag [x] = some ([(x, "")], []) := by
  simp [convert, convertOne, h1, h2]

/-- C10 witness: on `relEmptyId` the target row for `X` carries the empty
string, and the run records `X` matched to the empty string. -/
theorem empty_string_match_recorded_witness :
    convert relEmptyId "t" ["X"] = some ([("X", "")], []) :=
  empty_string_match_recorded relEmptyId "t" "X" "K" [] []
    (by decide) (by decide)

end Mbrole
